import Mathlib

/-!
Verification development for the teleprompter remote-control and pacing core.

The definitions below are a shallow embedding of the TypeScript sources:
  - the host message handler of RemoteHost (V2 revision),
  - the resetScroll operation of the Prompter (SessionTimer.tsx),
  - the speed adjustment helpers of useTeleprompter.ts and RemoteClient,
  - the animation-frame step of SessionTimer.tsx / useTeleprompter.ts,
  - the smart-pacing target-speed computation,
  - the timestamp-marker HTML preprocessor (processedHtml),
  - an event-trace model of startHost / connectToHost (usePeerConnection.ts).

Numbers are modelled by Rat (exact arithmetic in place of IEEE doubles) and
parsed integer timestamps by Int.
-/

namespace GoodScript

/-- Playback direction union type: the TS literal union forward | reverse. -/
inductive PlaybackDirection : Type where
  | forward : PlaybackDirection
  | reverse : PlaybackDirection
deriving DecidableEq, Repr

/-- Teleprompter settings record, from types.ts (V2, with playbackDirection).
String-valued union fields (fontFamily, theme, editorMood) are kept as String. -/
structure Settings : Type where
  scrollSpeed : ℚ
  fontSize : ℚ
  isMirrored : Bool
  isPlaying : Bool
  paddingX : ℚ
  fontFamily : String
  theme : String
  useSmartPacing : Bool
  enableWebcam : Bool
  enableGestures : Bool
  enableVoiceScroll : Bool
  editorTextColor : String
  editorMood : String
  playbackDirection : PlaybackDirection
deriving DecidableEq, Repr

/-- Host-side mutable state read and written by the Prompter component:
the settings object plus the scroll container position, the sub-pixel
accumulator ref, and the controls-visibility flag. -/
structure HostState : Type where
  settings : Settings
  scrollTop : ℚ
  scrollAccumulator : ℚ
  isControlsVisible : Bool
deriving DecidableEq, Repr

/-- Prompter.resetScroll from SessionTimer.tsx: scrollTop := 0, accumulator
:= 0, isPlaying := false, controls revealed. -/
def resetScroll (h : HostState) : HostState :=
  { h with
      scrollTop := 0
      scrollAccumulator := 0
      settings := { h.settings with isPlaying := false }
      isControlsVisible := true }

/-- Control message union, from types.ts (V2): one of the five message
types, with the payload type that goes with each, and the epoch-ms
timestamp. -/
inductive PeerMessage : Type where
  | setPlaying (value : Bool) (timestamp : ℤ) : PeerMessage
  | setSpeed (value : ℚ) (timestamp : ℤ) : PeerMessage
  | setFontSize (value : ℚ) (timestamp : ℤ) : PeerMessage
  | setDirection (value : PlaybackDirection) (timestamp : ℤ) : PeerMessage
  | resetScrollMsg (value : Bool) (timestamp : ℤ) : PeerMessage
deriving DecidableEq, Repr

/-- The RemoteHost onMessage handler (V2 revision): a switch over the
message type performing one field assignment per case, with RESET_SCROLL
delegating to resetScroll. -/
def onMessageHandler (m : PeerMessage) (h : HostState) : HostState :=
  match m with
  | .setPlaying b _ => { h with settings := { h.settings with isPlaying := b } }
  | .setSpeed v _ => { h with settings := { h.settings with scrollSpeed := v } }
  | .setFontSize v _ => { h with settings := { h.settings with fontSize := v } }
  | .setDirection d _ => { h with settings := { h.settings with playbackDirection := d } }
  | .resetScrollMsg _ _ => resetScroll h

/-- useTeleprompter.adjustSpeed: clamps scrollSpeed + delta into [0.5, 20]
via Math.max(0.5, Math.min(20, x)). -/
def adjustSpeed (delta : ℚ) (s : Settings) : Settings :=
  { s with scrollSpeed := max (1/2) (min 20 (s.scrollSpeed + delta)) }

/-- RemoteClient.handleSpeedChange: the same clamp applied to the remote
local speed before it is sent as a SET_SPEED payload. -/
def handleSpeedChange (delta : ℚ) (speed : ℚ) : ℚ :=
  max (1/2) (min 20 (speed + delta))

/-- A concrete host state used to evaluate the model on closed inputs. -/
def sampleHostState : HostState :=
  { settings :=
      { scrollSpeed := 5/2
        fontSize := 80
        isMirrored := false
        isPlaying := true
        paddingX := 15
        fontFamily := "sans"
        theme := "broadcast"
        useSmartPacing := true
        enableWebcam := false
        enableGestures := false
        enableVoiceScroll := false
        editorTextColor := "#d4d4d8"
        editorMood := "creator"
        playbackDirection := PlaybackDirection.reverse }
    scrollTop := 345
    scrollAccumulator := 7/10
    isControlsVisible := false }

/-- A cached timestamp marker node, as held in markerNodesRef: its DOM
offsetTop and its parsed integer data-timestamp attribute. -/
structure Marker : Type where
  offsetTop : ℚ
  timestamp : ℤ
deriving DecidableEq, Repr

/-- The pixel position a marker is compared against in the animation loop:
offsetTop minus half the client height. -/
def markerPixelPos (clientHeight : ℚ) (m : Marker) : ℚ :=
  m.offsetTop - clientHeight / 2

/-- The smart-pacing target-speed computation from the Prompter animation
loop (SessionTimer.tsx): find the first cached marker strictly more than
10px ahead of scrollTop, take its predecessor by index (or time 0 and
pixel position 0 when there is none), and when both the pixel span and the
time span of the segment are strictly positive return the segment rate
divided by 60 and scaled by 1.1; in every other case return the user-set
scrollSpeed. -/
def computeTargetSpeed (scrollSpeed clientHeight scrollTop : ℚ)
    (useSmartPacing : Bool) (markers : List Marker) : ℚ :=
  if useSmartPacing then
    match markers.find? (fun m => decide (scrollTop + 10 < m.offsetTop - clientHeight / 2)) with
    | some nextMarker =>
        let targetTime : ℤ := nextMarker.timestamp
        let targetPixelPos : ℚ := nextMarker.offsetTop - clientHeight / 2
        let prevMarkerIndex : ℤ := (markers.indexOf nextMarker : ℤ) - 1
        let prevMarker : Option Marker :=
          if 0 ≤ prevMarkerIndex then markers.get? prevMarkerIndex.toNat else none
        let prevTime : ℤ := (prevMarker.map Marker.timestamp).getD 0
        let prevPixelPos : ℚ :=
          (prevMarker.map (fun p => p.offsetTop - clientHeight / 2)).getD 0
        let segmentPixels : ℚ := targetPixelPos - prevPixelPos
        let segmentSeconds : ℤ := targetTime - prevTime
        if 0 < segmentSeconds ∧ 0 < segmentPixels then
          segmentPixels / (segmentSeconds : ℚ) / 60 * (11 / 10)
        else scrollSpeed
    | none => scrollSpeed
  else scrollSpeed

/-- The timestamp of the predecessor segment endpoint for a scroll
position lying after the markers in pre: the last marker of pre, or the
document start at time 0 when pre is empty. -/
def prevTimeOf (pre : List Marker) : ℤ :=
  (pre.getLast?.map Marker.timestamp).getD 0

/-- The pixel position of the predecessor segment endpoint: the last
marker of pre, or pixel position 0 when pre is empty. -/
def prevPixOf (clientHeight : ℚ) (pre : List Marker) : ℚ :=
  (pre.getLast?.map (fun p => p.offsetTop - clientHeight / 2)).getD 0

/-- Math.trunc on exact rationals: round toward zero. -/
def mathTrunc (q : ℚ) : ℤ :=
  if 0 ≤ q then ⌊q⌋ else ⌈q⌉

/-- The per-frame configuration read by the animation loop: the settings
fields it consumes, the cached marker list, and the scroll container
geometry. -/
structure FrameConfig : Type where
  scrollSpeed : ℚ
  useSmartPacing : Bool
  playbackDirection : PlaybackDirection
  markers : List Marker
  clientHeight : ℚ
  scrollHeight : ℚ
deriving DecidableEq, Repr

/-- The state the animation loop mutates: scroll position, sub-pixel
accumulator ref, play flag, and the controls-visibility flag. -/
structure ScrollState : Type where
  scrollTop : ℚ
  acc : ℚ
  isPlaying : Bool
  isControlsVisible : Bool
deriving DecidableEq, Repr

/-- One tick of the Prompter animation loop from SessionTimer.tsx: when
playing, compute the target speed, apply the direction sign, accumulate
the delta-time-scaled displacement, apply only the truncated integer part
to scrollTop, and finally check the auto-stop conditions against the
scrollTop value destructured at the start of the tick. The Bool result
records whether an auto-stop branch fired this tick. -/
def animateFrame (cfg : FrameConfig) (deltaTime : ℚ) (s : ScrollState) :
    ScrollState × Bool :=
  if s.isPlaying then
    let scrollTop := s.scrollTop
    let targetSpeed :=
      computeTargetSpeed cfg.scrollSpeed cfg.clientHeight scrollTop
        cfg.useSmartPacing cfg.markers
    let directionMultiplier : ℚ :=
      if cfg.playbackDirection = PlaybackDirection.reverse then -1 else 1
    let pixelsToScroll := targetSpeed * (deltaTime / (1667 / 100)) * directionMultiplier
    let acc1 := s.acc + pixelsToScroll
    let integerMove := mathTrunc acc1
    let st1 : ScrollState :=
      if integerMove ≠ 0 then
        { s with scrollTop := s.scrollTop + (integerMove : ℚ), acc := acc1 - (integerMove : ℚ) }
      else
        { s with acc := acc1 }
    if cfg.playbackDirection = PlaybackDirection.forward ∧
        cfg.scrollHeight - (scrollTop + cfg.clientHeight) ≤ 1 then
      ({ st1 with isPlaying := false, isControlsVisible := true }, true)
    else if cfg.playbackDirection = PlaybackDirection.reverse ∧ scrollTop ≤ 0 then
      ({ st1 with isPlaying := false, isControlsVisible := true }, true)
    else
      (st1, false)
  else
    (s, false)

/-- One tick of the useTeleprompter.ts animation loop: forward only, the
displacement is scrollSpeed scaled by deltaTime over 16.67, Math.floor of
the accumulator is applied when strictly positive, and the loop auto-stops
within 1px of the bottom (checked against the scrollTop destructured at
the start of the tick). -/
def animateFrameBasic (scrollSpeed clientHeight scrollHeight deltaTime : ℚ)
    (s : ScrollState) : ScrollState × Bool :=
  if s.isPlaying then
    let scrollTop := s.scrollTop
    let pixelsToScroll := scrollSpeed * (deltaTime / (1667 / 100))
    let acc1 := s.acc + pixelsToScroll
    let integerMove := ⌊acc1⌋
    let st1 : ScrollState :=
      if 0 < integerMove then
        { s with scrollTop := s.scrollTop + (integerMove : ℚ), acc := acc1 - (integerMove : ℚ) }
      else
        { s with acc := acc1 }
    if scrollHeight - (scrollTop + clientHeight) ≤ 1 then
      ({ st1 with isPlaying := false }, true)
    else
      (st1, false)
  else
    (s, false)

/-- Numeric value of an ASCII digit character. -/
def digitVal (c : Char) : ℕ :=
  c.toNat - '0'.toNat

/-- One attempt of the global regex of processedHtml at the current scan
position. The pattern is a literal bracket, one or two decimal digits
(greedily two when the next two characters are both digits, which is the
only successful backtracking shape of d-one-or-two), a colon, exactly two
decimal digits, and a closing bracket. On success it returns the matched
characters, the value minutes*60 + seconds computed by the replacement
callback from the two colon-separated numbers, and the remaining input
after the match. -/
def matchMarkerAt (cs : List Char) : Option (List Char × ℕ × List Char) :=
  match cs with
  | b0 :: b1 :: b2 :: b3 :: b4 :: b5 :: rest =>
      if b0 = '[' ∧ b1.isDigit then
        if b2.isDigit then
          match rest with
          | b6 :: rest2 =>
              if b3 = ':' ∧ b4.isDigit ∧ b5.isDigit ∧ b6 = ']' then
                some ([b0, b1, b2, b3, b4, b5, b6],
                  (10 * digitVal b1 + digitVal b2) * 60
                    + (10 * digitVal b4 + digitVal b5),
                  rest2)
              else none
          | [] => none
        else
          if b2 = ':' ∧ b3.isDigit ∧ b4.isDigit ∧ b5 = ']' then
            some ([b0, b1, b2, b3, b4, b5],
              digitVal b1 * 60 + (10 * digitVal b3 + digitVal b4), rest)
          else none
      else none
  | _ => none

/-- The replacement string the callback of processedHtml produces for one
match: an inert span carrying the computed data-timestamp and containing
the original matched text. -/
def wrapSpan (matched : List Char) (totalSeconds : ℕ) : List Char :=
  ("<span class=\"inline-flex items-center justify-center px-1.5 py-0.5 mx-2 text-[0.4em] align-middle rounded bg-white/10 text-white font-mono border border-white/20 select-none opacity-60\" data-timestamp=\"").data
    ++ (toString totalSeconds).data
    ++ ("\">").data ++ matched ++ ("</span>").data

/-- The global scan-and-replace of processedHtml over the character
sequence: at each position try the pattern; on a match emit the wrapped
replacement and continue after the match, otherwise emit the character
unchanged and advance by one. -/
def processedHtmlChars (cs : List Char) : List Char :=
  match h : matchMarkerAt cs with
  | some r => wrapSpan r.1 r.2.1 ++ processedHtmlChars r.2.2
  | none =>
      match cs with
      | [] => []
      | c :: rest => c :: processedHtmlChars rest
termination_by cs.length
decreasing_by
  · unfold matchMarkerAt at h
    repeat' split at h
    any_goals cases h
    all_goals simp_all
    all_goals omega
  · simp

/-- The Prompter processedHtml preprocessor on strings. -/
def processedHtml (s : String) : String :=
  String.mk (processedHtmlChars s.data)

/-- Specification-side description of a timestamp marker, from the words
of the spec: the literal substrings of shape bracket m colon s s bracket
or bracket m m colon s s bracket with decimal digits, whose data-timestamp
value is minutes*60 + seconds. -/
def isTimestampMarker (m : List Char) (t : ℕ) : Prop :=
  (∃ d1 s1 s2, d1.isDigit ∧ s1.isDigit ∧ s2.isDigit ∧
    m = ['[', d1, ':', s1, s2, ']'] ∧
    t = digitVal d1 * 60 + (10 * digitVal s1 + digitVal s2)) ∨
  (∃ d1 d2 s1 s2, d1.isDigit ∧ d2.isDigit ∧ s1.isDigit ∧ s2.isDigit ∧
    m = ['[', d1, d2, ':', s1, s2, ']'] ∧
    t = (10 * digitVal d1 + digitVal d2) * 60
          + (10 * digitVal s1 + digitVal s2))

/-- Iterate the Prompter animation loop over a list of frame deltas,
counting how many times the auto-stop branch fired. -/
def runFrames (cfg : FrameConfig) (deltas : List ℚ) (s : ScrollState) :
    ScrollState × Nat :=
  match deltas with
  | [] => (s, 0)
  | d :: rest =>
      let step := animateFrame cfg d s
      let next := runFrames cfg rest step.1
      (next.1, (if step.2 then 1 else 0) + next.2)

/-- Asynchronous callback events observable by one startHost attempt in
usePeerConnection.ts: the relay subscription status callbacks, the direct
peer open and error callbacks, and the catch of a synchronous setup
exception. -/
inductive HostEvent : Type where
  | relaySubscribed : HostEvent
  | relayFailed : HostEvent
  | peerOpen : HostEvent
  | peerOtherError : HostEvent
  | syncCaught : HostEvent
  | peerUnavailableId : HostEvent
deriving DecidableEq, Repr

/-- The derived direct-transport peer id for a room code. -/
def peerIdOf (id : String) : String :=
  "goodscript-" ++ id

/-- The hook state shared across a startHost call and its retries (React
state of usePeerConnection), plus two observation lists: the room codes
under which the host actually became reachable on some transport, and the
peer ids destroyed. -/
structure HostShared : Type where
  roomId : Option String
  isConnected : Bool
  reachable : List String
  destroyed : List String
deriving DecidableEq, Repr

/-- The per-call state of one startHost attempt: the shared hook state,
this call's promise resolution value (safeResolve resolves the generated
id of this call and ignores later calls), whether this call's peer was
destroyed, and whether the unavailable-id retry was requested. -/
structure HostAttemptState : Type where
  shared : HostShared
  resolution : Option String
  peerDestroyed : Bool
  retryRequested : Bool
deriving DecidableEq, Repr

/-- Effect of one asynchronous event on a startHost attempt with generated
room code id, following the callbacks of usePeerConnection.startHost:
SUBSCRIBED and peer open publish the room code, mark connected, and
safeResolve; CHANNEL_ERROR / TIMED_OUT and other peer errors only log; a
caught synchronous exception safeResolves; an unavailable-id error
destroys the peer and requests the retry. -/
def hostStep (id : String) (st : HostAttemptState) (e : HostEvent) : HostAttemptState :=
  match e with
  | .relaySubscribed =>
      { st with
          shared := { st.shared with
            roomId := some id
            isConnected := true
            reachable := st.shared.reachable ++ [id] }
          resolution := some (st.resolution.getD id) }
  | .relayFailed => st
  | .peerOpen =>
      if st.peerDestroyed then st
      else
        { st with
            shared := { st.shared with
              roomId := some id
              isConnected := true
              reachable := st.shared.reachable ++ [id] }
            resolution := some (st.resolution.getD id) }
  | .peerOtherError => st
  | .syncCaught => { st with resolution := some (st.resolution.getD id) }
  | .peerUnavailableId =>
      if st.peerDestroyed then st
      else
        { st with
            shared := { st.shared with
              destroyed := st.shared.destroyed ++ [peerIdOf id] }
            peerDestroyed := true
            retryRequested := true }

/-- Run one startHost attempt over its event trace. -/
def processAttempt (id : String) (events : List HostEvent) (shared : HostShared) :
    HostAttemptState :=
  events.foldl (hostStep id)
    { shared := shared, resolution := none, peerDestroyed := false, retryRequested := false }

/-- Run startHost with its chain of unavailable-id retries: each attempt
consumes one generated room code and one event trace; when the attempt
requested a retry, the recursive startHost call runs next and its
resolution triggers the pending .then(safeResolve) of this call, which
resolves this call's promise with this call's ORIGINAL generated id
(safeResolve closes over id and ignores the value the retry resolved
with). The result is the final shared state and the value the outermost
promise resolved with (none when it is still pending). -/
def runStartHostFrom : List String → List (List HostEvent) → HostShared →
    HostShared × Option String
  | id :: ids, trace :: traces, shared =>
      let st := processAttempt id trace shared
      if st.retryRequested then
        let sub := runStartHostFrom ids traces st.shared
        (sub.1,
          if st.resolution.isSome then st.resolution
          else if sub.2.isSome then some id else none)
      else (st.shared, st.resolution)
  | _, _, shared => (shared, none)

/-- startHost from the initial disconnected hook state. -/
def runStartHost (ids : List String) (traces : List (List HostEvent)) :
    HostShared × Option String :=
  runStartHostFrom ids traces
    { roomId := none, isConnected := false, reachable := [], destroyed := [] }

/-- Asynchronous events observable by one connectToHost call on the remote
client, plus the RemoteClient 10-second timer firing. -/
inductive ClientEvent : Type where
  | relaySubscribed : ClientEvent
  | relayFailed : ClientEvent
  | peerConnOpen : ClientEvent
  | peerConnError : ClientEvent
  | syncCaught : ClientEvent
  | timeoutFired : ClientEvent
deriving DecidableEq, Repr

/-- The remote-client connection state: whether the connectToHost promise
has resolved, the RemoteClient isConnecting UI flag, and the hook
isConnected flag. -/
structure ClientRun : Type where
  resolved : Bool
  isConnecting : Bool
  isConnected : Bool
deriving DecidableEq, Repr

/-- Effect of one event on the remote client, following
usePeerConnection.connectToHost and the RemoteClient connect effect: relay
subscription or direct connection open mark connected and resolve (and the
.then of the resolved promise clears isConnecting); a caught synchronous
exception resolves; the 10-second timer only clears the isConnecting UI
flag and resolves nothing; error callbacks only log. -/
def clientStep (c : ClientRun) (e : ClientEvent) : ClientRun :=
  match e with
  | .relaySubscribed => { c with isConnected := true, resolved := true, isConnecting := false }
  | .relayFailed => c
  | .peerConnOpen => { c with isConnected := true, resolved := true, isConnecting := false }
  | .peerConnError => c
  | .syncCaught => { c with resolved := true, isConnecting := false }
  | .timeoutFired => { c with isConnecting := false }

/-- connectToHost from the initial connecting state over an event trace. -/
def runConnectToHost (events : List ClientEvent) : ClientRun :=
  events.foldl clientStep { resolved := false, isConnecting := true, isConnected := false }

end GoodScript

namespace GoodScript

/-- C3: handling any one of the five control messages twice in immediate
succession leaves the host state exactly as handling it once: every case of
the handler is an idempotent field assignment (and resetScroll writes
constants), so duplicate delivery over the two transports is safe. -/
theorem control_message_idempotent (m : PeerMessage) (h : HostState) :
    onMessageHandler m (onMessageHandler m h) = onMessageHandler m h := by
  cases m <;> rfl

/-- C4: a RESET_SCROLL message always produces scroll position 0, a zeroed
sub-pixel accumulator, and isPlaying = false, for every prior host state
(including reverse playback direction). -/
theorem reset_scroll_resets (b : Bool) (t : ℤ) (h : HostState) :
    (onMessageHandler (.resetScrollMsg b t) h).scrollTop = 0 ∧
    (onMessageHandler (.resetScrollMsg b t) h).scrollAccumulator = 0 ∧
    (onMessageHandler (.resetScrollMsg b t) h).settings.isPlaying = false := by
  exact ⟨rfl, rfl, rfl⟩

/-- C10: each control message writes at most one field of the settings:
SET_PLAYING only isPlaying, SET_SPEED only scrollSpeed, SET_FONT_SIZE only
fontSize, SET_DIRECTION only playbackDirection; RESET_SCROLL performs only
the reset operation (position, accumulator, isPlaying); and no message
alters useSmartPacing, theme, mirroring, or any other setting. -/
theorem control_message_frame (m : PeerMessage) (h : HostState) :
    (onMessageHandler m h).settings.useSmartPacing = h.settings.useSmartPacing ∧
    (onMessageHandler m h).settings.theme = h.settings.theme ∧
    (onMessageHandler m h).settings.isMirrored = h.settings.isMirrored ∧
    (onMessageHandler m h).settings.paddingX = h.settings.paddingX ∧
    (onMessageHandler m h).settings.fontFamily = h.settings.fontFamily ∧
    (onMessageHandler m h).settings.enableWebcam = h.settings.enableWebcam ∧
    (onMessageHandler m h).settings.enableGestures = h.settings.enableGestures ∧
    (onMessageHandler m h).settings.enableVoiceScroll = h.settings.enableVoiceScroll ∧
    (onMessageHandler m h).settings.editorTextColor = h.settings.editorTextColor ∧
    (onMessageHandler m h).settings.editorMood = h.settings.editorMood ∧
    (∀ b t, m = .setPlaying b t →
      onMessageHandler m h =
        { h with settings := { h.settings with isPlaying := b } }) ∧
    (∀ v t, m = .setSpeed v t →
      onMessageHandler m h =
        { h with settings := { h.settings with scrollSpeed := v } }) ∧
    (∀ v t, m = .setFontSize v t →
      onMessageHandler m h =
        { h with settings := { h.settings with fontSize := v } }) ∧
    (∀ d t, m = .setDirection d t →
      onMessageHandler m h =
        { h with settings := { h.settings with playbackDirection := d } }) ∧
    (∀ b t, m = .resetScrollMsg b t → onMessageHandler m h = resetScroll h) := by
  cases m <;>
    refine ⟨rfl, rfl, rfl, rfl, rfl, rfl, rfl, rfl, rfl, rfl, ?_, ?_, ?_, ?_, ?_⟩ <;>
    intro x t hx <;> cases hx <;> rfl

/-- Witness for C10: the frame conditions evaluated on a concrete
SET_SPEED message and host state. -/
theorem control_message_frame_witness :
    (onMessageHandler (.setSpeed 7 0) sampleHostState).settings.useSmartPacing =
      sampleHostState.settings.useSmartPacing ∧
    onMessageHandler (.setSpeed 7 0) sampleHostState =
      { sampleHostState with
          settings := { sampleHostState.settings with scrollSpeed := 7 } } :=
  ⟨(control_message_frame (.setSpeed 7 0) sampleHostState).1,
   ((control_message_frame (.setSpeed 7 0) sampleHostState).2.2.2.2.2.2.2.2.2.2.2.1) 7 0 rfl⟩

/-- C5 counterexample: the host SET_SPEED case assigns the raw payload
without any clamp, so an inbound SET_SPEED with payload 21 drives
scrollSpeed outside [0.5, 20]. -/
theorem set_speed_unclamped_counterexample :
    (onMessageHandler (.setSpeed 21 0) sampleHostState).settings.scrollSpeed = 21 ∧
    ¬ (onMessageHandler (.setSpeed 21 0) sampleHostState).settings.scrollSpeed ≤ 20 := by
  constructor
  · rfl
  · decide

/-- C5 amended: the local UI speed adjustment (adjustSpeed) and the remote
client speed control (handleSpeedChange) always clamp the resulting speed
into [0.5, 20], for every delta and every prior speed; the host SET_SPEED
handler writes the payload through unclamped, so it keeps scrollSpeed in
[0.5, 20] exactly when the payload itself lies in [0.5, 20]. -/
theorem scroll_speed_range (delta v : ℚ) (s : Settings) (t : ℤ) (h : HostState) :
    (1/2 ≤ (adjustSpeed delta s).scrollSpeed ∧ (adjustSpeed delta s).scrollSpeed ≤ 20) ∧
    (1/2 ≤ handleSpeedChange delta v ∧ handleSpeedChange delta v ≤ 20) ∧
    (1/2 ≤ v → v ≤ 20 →
      1/2 ≤ (onMessageHandler (.setSpeed v t) h).settings.scrollSpeed ∧
      (onMessageHandler (.setSpeed v t) h).settings.scrollSpeed ≤ 20) := by
  refine ⟨⟨le_max_left _ _, ?_⟩, ⟨le_max_left _ _, ?_⟩, fun h1 h2 => ⟨h1, h2⟩⟩
  · exact max_le (by norm_num) (min_le_left _ _)
  · exact max_le (by norm_num) (min_le_left _ _)

/-- Witness for C5 amended: the clamps and the in-range pass-through
evaluated at concrete inputs. -/
theorem scroll_speed_range_witness :
    (1/2 ≤ (adjustSpeed 100 sampleHostState.settings).scrollSpeed ∧
      (adjustSpeed 100 sampleHostState.settings).scrollSpeed ≤ 20) ∧
    (1/2 ≤ handleSpeedChange (-100) 3 ∧ handleSpeedChange (-100) 3 ≤ 20) ∧
    (1/2 ≤ (onMessageHandler (.setSpeed 5 0) sampleHostState).settings.scrollSpeed ∧
      (onMessageHandler (.setSpeed 5 0) sampleHostState).settings.scrollSpeed ≤ 20) := by
  have h := scroll_speed_range 100 5 sampleHostState.settings 0 sampleHostState
  have h2 := scroll_speed_range (-100) 3 sampleHostState.settings 0 sampleHostState
  exact ⟨h.1, h2.2.1, h.2.2 (by norm_num) (by norm_num)⟩

/-- find? on an appended list returns the head of the second part when the
predicate fails everywhere on the first part and holds on that head. -/
theorem find?_append_first (p : Marker → Bool) (pre suffix : List Marker)
    (next : Marker) (hpre : ∀ m ∈ pre, p m = false) (hnext : p next = true) :
    (pre ++ next :: suffix).find? p = some next := by
  induction pre with
  | nil => simp [List.find?, hnext]
  | cons a rest ih =>
      have ha : p a = false := hpre a (List.mem_cons_self a rest)
      have hrest : ∀ m ∈ rest, p m = false :=
        fun m hm => hpre m (List.mem_cons_of_mem a hm)
      simp [List.find?, ha, ih hrest]

/-- get? at the last index of the first part of an appended list is the
last element of that part. -/
theorem get?_append_last (pre rest : List Marker) (h : pre ≠ []) :
    (pre ++ rest).get? (pre.length - 1) = pre.getLast? := by
  have hlen : pre.length - 1 < pre.length := by
    cases pre with
    | nil => exact absurd rfl h
    | cons a l => simp
  rw [List.get?_append hlen, List.get?_eq_getElem?, List.getLast?_eq_getElem?]

/-- Core reduction of the smart-pacing computation: when every marker of
pre fails the 10px-lookahead test and next passes it, the computed target
speed depends only on next and on the last marker of pre (or the document
start), regardless of the markers after next. -/
theorem computeTargetSpeed_segment (scrollSpeed clientHeight scrollTop : ℚ)
    (pre suffix : List Marker) (next : Marker)
    (hpre : ∀ m ∈ pre, ¬ scrollTop + 10 < m.offsetTop - clientHeight / 2)
    (hnext : scrollTop + 10 < next.offsetTop - clientHeight / 2) :
    computeTargetSpeed scrollSpeed clientHeight scrollTop true (pre ++ next :: suffix)
      = if 0 < next.timestamp - prevTimeOf pre ∧
            0 < markerPixelPos clientHeight next - prevPixOf clientHeight pre
        then (markerPixelPos clientHeight next - prevPixOf clientHeight pre)
              / ((next.timestamp - prevTimeOf pre : ℤ) : ℚ) / 60 * (11 / 10)
        else scrollSpeed := by
  have hfind : (pre ++ next :: suffix).find?
      (fun m => decide (scrollTop + 10 < m.offsetTop - clientHeight / 2)) = some next := by
    refine find?_append_first _ pre suffix next (fun m hm => ?_) (by simpa using hnext)
    simpa using hpre m hm
  have hnotmem : next ∉ pre := fun hmem => hpre next hmem hnext
  have hidx : List.indexOf next (pre ++ next :: suffix) = pre.length := by
    rw [List.indexOf_append_of_not_mem hnotmem, List.indexOf_cons_self]
    omega
  unfold computeTargetSpeed
  rw [if_pos rfl, hfind]
  simp only [hidx]
  cases pre with
  | nil =>
      have hneg : ¬ (0 : ℤ) ≤ ([] : List Marker).length - 1 := by simp
      simp only [List.length_nil, hneg, if_false, Option.map_none, Option.getD_none]
      simp [prevTimeOf, prevPixOf, markerPixelPos]
  | cons p0 rest =>
      have hpos : (0 : ℤ) ≤ ((p0 :: rest : List Marker).length : ℤ) - 1 := by
        simp
      rw [if_pos hpos]
      have htoNat : (((p0 :: rest : List Marker).length : ℤ) - 1).toNat
          = (p0 :: rest : List Marker).length - 1 := by
        simp
      rw [htoNat, get?_append_last (p0 :: rest) (next :: suffix) (by simp)]
      have hlast : (p0 :: rest : List Marker).getLast? =
          some ((p0 :: rest).getLast (by simp)) :=
        List.getLast?_eq_getLast_of_ne_nil (by simp)
      rw [hlast]
      simp [prevTimeOf, prevPixOf, markerPixelPos, hlast]

/-- With smart pacing off the target speed is the user-set scrollSpeed. -/
theorem computeTargetSpeed_off (scrollSpeed clientHeight scrollTop : ℚ)
    (markers : List Marker) :
    computeTargetSpeed scrollSpeed clientHeight scrollTop false markers = scrollSpeed := rfl

/-- C1: with playback running and smart pacing on, when the first cached
marker strictly more than 10px ahead of the scroll position exists and the
segment from its predecessor (or the document start at time 0, position 0)
has strictly positive pixel span and strictly positive time span, the
target speed is exactly (nextPixelPos - prevPixelPos) divided by
(nextTimeSeconds - prevTimeSeconds), divided by 60 and multiplied by 1.1,
for every list of markers after the next one; when either span is not
strictly positive, the target speed is the user-set scrollSpeed. -/
theorem smart_pacing_segment_speed (scrollSpeed clientHeight scrollTop : ℚ)
    (pre suffix : List Marker) (next : Marker)
    (hpre : ∀ m ∈ pre, ¬ scrollTop + 10 < m.offsetTop - clientHeight / 2)
    (hnext : scrollTop + 10 < next.offsetTop - clientHeight / 2) :
    (0 < next.timestamp - prevTimeOf pre ∧
        0 < markerPixelPos clientHeight next - prevPixOf clientHeight pre →
      computeTargetSpeed scrollSpeed clientHeight scrollTop true (pre ++ next :: suffix)
        = (markerPixelPos clientHeight next - prevPixOf clientHeight pre)
            / ((next.timestamp - prevTimeOf pre : ℤ) : ℚ) / 60 * (11 / 10)) ∧
    (¬ (0 < next.timestamp - prevTimeOf pre ∧
        0 < markerPixelPos clientHeight next - prevPixOf clientHeight pre) →
      computeTargetSpeed scrollSpeed clientHeight scrollTop true (pre ++ next :: suffix)
        = scrollSpeed) := by
  have hseg := computeTargetSpeed_segment scrollSpeed clientHeight scrollTop
    pre suffix next hpre hnext
  constructor
  · intro h; rw [hseg, if_pos h]
  · intro h; rw [hseg, if_neg h]

/-- Witness for C1: the reference scenario of the spec, markers at 10s and
20s placed 500px and 1500px into the document with the viewport centerline
accounted for, scroll position halfway between them: the target speed is
100 px/s over 60 frames times 1.1, that is 11/6 px per frame; and a
non-monotonic second marker time falls back to the user speed. -/
theorem smart_pacing_segment_speed_witness :
    computeTargetSpeed 2 600 1000 true
        [⟨800, 10⟩, ⟨1800, 20⟩] = 11 / 6 ∧
    computeTargetSpeed 2 600 1000 true
        [⟨800, 10⟩, ⟨1800, 5⟩] = 2 := by
  constructor
  · have h := (smart_pacing_segment_speed 2 600 1000 [⟨800, 10⟩] []
      ⟨1800, 20⟩
      (by intro m hm; simp at hm; subst hm; norm_num)
      (by norm_num)).1
      (by norm_num [prevTimeOf, prevPixOf, markerPixelPos])
    rw [show ([⟨800, 10⟩, ⟨1800, 20⟩] : List Marker)
        = [⟨800, 10⟩] ++ ⟨1800, 20⟩ :: [] from rfl, h]
    norm_num [prevTimeOf, prevPixOf, markerPixelPos]
  · have h := (smart_pacing_segment_speed 2 600 1000 [⟨800, 10⟩] []
      ⟨1800, 5⟩
      (by intro m hm; simp at hm; subst hm; norm_num)
      (by norm_num)).2
      (by norm_num [prevTimeOf, prevPixOf, markerPixelPos])
    rw [show ([⟨800, 10⟩, ⟨1800, 5⟩] : List Marker)
        = [⟨800, 10⟩] ++ ⟨1800, 5⟩ :: [] from rfl, h]

/-- Math.trunc agrees with the floor on nonnegative rationals. -/
theorem mathTrunc_of_nonneg (q : ℚ) (h : 0 ≤ q) : mathTrunc q = ⌊q⌋ := by
  simp [mathTrunc, h]

/-- A running forward tick with smart pacing off applies exactly the
integer part of accumulator + displacement to scrollTop and keeps the
fractional part in the accumulator. -/
theorem animateFrame_forward_step (cfg : FrameConfig) (d : ℚ) (s : ScrollState)
    (hsmart : cfg.useSmartPacing = false)
    (hdir : cfg.playbackDirection = PlaybackDirection.forward)
    (hp : s.isPlaying = true) (hacc : 0 ≤ s.acc)
    (hdisp : 0 ≤ cfg.scrollSpeed * (d / (1667 / 100))) :
    (animateFrame cfg d s).1.scrollTop
        = s.scrollTop + (⌊s.acc + cfg.scrollSpeed * (d / (1667 / 100))⌋ : ℚ) ∧
    (animateFrame cfg d s).1.acc
        = Int.fract (s.acc + cfg.scrollSpeed * (d / (1667 / 100))) := by
  have hrev : ¬ cfg.playbackDirection = PlaybackDirection.reverse := by
    rw [hdir]; intro hcontra; cases hcontra
  have hsum : (0 : ℚ) ≤ s.acc + cfg.scrollSpeed * (d / (1667 / 100)) := by linarith
  have htr := mathTrunc_of_nonneg _ hsum
  unfold animateFrame
  simp only [hp, if_true, hsmart, computeTargetSpeed_off, hrev, if_false, mul_one,
    Int.fract]
  rw [htr]
  by_cases hz : ⌊s.acc + cfg.scrollSpeed * (d / (1667 / 100))⌋ = 0
  · simp only [hz, ne_eq, not_true_eq_false, if_false, Int.cast_zero, add_zero, sub_zero]
    split_ifs <;> simp
  · simp only [ne_eq, hz, not_false_eq_true, if_true]
    split_ifs <;> simp

/-- A running tick that does not fire the auto-stop branch leaves
isPlaying true. -/
theorem animateFrame_not_fired_playing (cfg : FrameConfig) (d : ℚ) (s : ScrollState)
    (hp : s.isPlaying = true) (hf : (animateFrame cfg d s).2 = false) :
    (animateFrame cfg d s).1.isPlaying = true := by
  unfold animateFrame at hf ⊢
  simp only [hp, if_true] at hf ⊢
  split_ifs at hf ⊢ <;> simp_all

/-- A running tick conserves scrollTop + accumulator up to the exact
displacement of the frame (forward, smart pacing off). -/
theorem animateFrame_forward_conserve (cfg : FrameConfig) (d : ℚ) (s : ScrollState)
    (hsmart : cfg.useSmartPacing = false)
    (hdir : cfg.playbackDirection = PlaybackDirection.forward)
    (hp : s.isPlaying = true) (hacc : 0 ≤ s.acc)
    (hdisp : 0 ≤ cfg.scrollSpeed * (d / (1667 / 100))) :
    (animateFrame cfg d s).1.scrollTop + (animateFrame cfg d s).1.acc
      = s.scrollTop + s.acc + cfg.scrollSpeed * (d / (1667 / 100)) := by
  have h := animateFrame_forward_step cfg d s hsmart hdir hp hacc hdisp
  rw [h.1, h.2, Int.fract]
  ring

/-- Iterating running forward ticks with smart pacing off and no auto-stop
keeps the accumulator in [0, 1) and conserves scrollTop + accumulator up
to the exact sum of the per-frame displacements. -/
theorem runFrames_forward_invariant (cfg : FrameConfig) (deltas : List ℚ)
    (s : ScrollState)
    (hsmart : cfg.useSmartPacing = false)
    (hdir : cfg.playbackDirection = PlaybackDirection.forward)
    (hspeed : 0 < cfg.scrollSpeed)
    (hds : ∀ d ∈ deltas, 0 < d)
    (hp : s.isPlaying = true) (hacc0 : 0 ≤ s.acc) (hacc1 : s.acc < 1)
    (hnofire : (runFrames cfg deltas s).2 = 0) :
    (runFrames cfg deltas s).1.scrollTop + (runFrames cfg deltas s).1.acc
        = s.scrollTop + s.acc +
            (deltas.map fun d => cfg.scrollSpeed * (d / (1667 / 100))).sum ∧
    0 ≤ (runFrames cfg deltas s).1.acc ∧ (runFrames cfg deltas s).1.acc < 1 := by
  induction deltas generalizing s with
  | nil => exact ⟨by simp [runFrames], hacc0, hacc1⟩
  | cons d rest ih =>
      have hd : 0 < d := hds d (List.mem_cons_self d rest)
      have hrest : ∀ x ∈ rest, 0 < x := fun x hx => hds x (List.mem_cons_of_mem d hx)
      have hdisp : 0 ≤ cfg.scrollSpeed * (d / (1667 / 100)) := by positivity
      have hrun : runFrames cfg (d :: rest) s
          = ((runFrames cfg rest (animateFrame cfg d s).1).1,
             (if (animateFrame cfg d s).2 then 1 else 0) +
               (runFrames cfg rest (animateFrame cfg d s).1).2) := rfl
      have hsplit : (animateFrame cfg d s).2 = false ∧
          (runFrames cfg rest (animateFrame cfg d s).1).2 = 0 := by
        rw [hrun] at hnofire
        by_cases hb : (animateFrame cfg d s).2
        · rw [hb] at hnofire; simp at hnofire
        · rw [eq_false_of_ne_true hb] at hnofire
          simp at hnofire
          exact ⟨eq_false_of_ne_true hb, hnofire⟩
      have hplay1 : (animateFrame cfg d s).1.isPlaying = true :=
        animateFrame_not_fired_playing cfg d s hp hsplit.1
      have hstep := animateFrame_forward_step cfg d s hsmart hdir hp hacc0 hdisp
      have hacc1' : 0 ≤ (animateFrame cfg d s).1.acc := by
        rw [hstep.2]; exact Int.fract_nonneg _
      have hacc2' : (animateFrame cfg d s).1.acc < 1 := by
        rw [hstep.2]; exact Int.fract_lt_one _
      have hcons := animateFrame_forward_conserve cfg d s hsmart hdir hp hacc0 hdisp
      have ihr := ih (animateFrame cfg d s).1 hrest hplay1 hacc1' hacc2' hsplit.2
      refine ⟨?_, ?_, ?_⟩
      · rw [hrun]
        simp only [List.map_cons, List.sum_cons]
        rw [ihr.1, hcons]
        ring
      · rw [hrun]; exact ihr.2.1
      · rw [hrun]; exact ihr.2.2

/-- C2: with smart pacing off and forward playback, for every scrollSpeed
in [0.5, 20] and every frame delta > 0, a running tick moves scrollTop by
exactly the integer part of accumulator + scrollSpeed * delta / 16.67 and
keeps the fractional part in the accumulator (shown for the SessionTimer
loop and for the useTeleprompter loop), and over any list of consecutive
running frames the total pixels applied differ from the exact sum of the
per-frame displacements by strictly less than one pixel. -/
theorem accumulator_no_pixel_loss (cfg : FrameConfig) (d : ℚ) (deltas : List ℚ)
    (s : ScrollState) (clientHeight scrollHeight : ℚ)
    (hsmart : cfg.useSmartPacing = false)
    (hdir : cfg.playbackDirection = PlaybackDirection.forward)
    (hspeed1 : 1/2 ≤ cfg.scrollSpeed) (hspeed2 : cfg.scrollSpeed ≤ 20)
    (hd : 0 < d)
    (hds : ∀ x ∈ deltas, 0 < x)
    (hp : s.isPlaying = true) (hacc0 : 0 ≤ s.acc) (hacc1 : s.acc < 1)
    (hnofire : (runFrames cfg deltas s).2 = 0) :
    ((animateFrame cfg d s).1.scrollTop
        = s.scrollTop + (⌊s.acc + cfg.scrollSpeed * (d / (1667 / 100))⌋ : ℚ) ∧
      (animateFrame cfg d s).1.acc
        = (s.acc + cfg.scrollSpeed * (d / (1667 / 100)))
            - (⌊s.acc + cfg.scrollSpeed * (d / (1667 / 100))⌋ : ℚ)) ∧
    ((animateFrameBasic cfg.scrollSpeed clientHeight scrollHeight d s).1.scrollTop
        = s.scrollTop + (⌊s.acc + cfg.scrollSpeed * (d / (1667 / 100))⌋ : ℚ) ∧
      (animateFrameBasic cfg.scrollSpeed clientHeight scrollHeight d s).1.acc
        = (s.acc + cfg.scrollSpeed * (d / (1667 / 100)))
            - (⌊s.acc + cfg.scrollSpeed * (d / (1667 / 100))⌋ : ℚ)) ∧
    |(runFrames cfg deltas s).1.scrollTop - s.scrollTop
        - (deltas.map fun x => cfg.scrollSpeed * (x / (1667 / 100))).sum| < 1 := by
  have hspeed : 0 < cfg.scrollSpeed := lt_of_lt_of_le (by norm_num) hspeed1
  have hdisp : 0 ≤ cfg.scrollSpeed * (d / (1667 / 100)) := by positivity
  have hstep := animateFrame_forward_step cfg d s hsmart hdir hp hacc0 hdisp
  have hsum : (0 : ℚ) ≤ s.acc + cfg.scrollSpeed * (d / (1667 / 100)) := by linarith
  refine ⟨⟨hstep.1, by rw [hstep.2, Int.fract]⟩, ?_, ?_⟩
  · unfold animateFrameBasic
    simp only [hp, if_true]
    by_cases hz : 0 < ⌊s.acc + cfg.scrollSpeed * (d / (1667 / 100))⌋
    · simp only [hz, if_true]
      split_ifs <;> exact ⟨rfl, rfl⟩
    · have hz0 : ⌊s.acc + cfg.scrollSpeed * (d / (1667 / 100))⌋ = 0 := by
        have := Int.floor_nonneg.mpr hsum
        omega
      simp only [hz, if_false]
      rw [hz0]
      split_ifs <;> constructor <;> simp
  · have hrun := runFrames_forward_invariant cfg deltas s hsmart hdir hspeed hds hp
      hacc0 hacc1 hnofire
    have heq : (runFrames cfg deltas s).1.scrollTop - s.scrollTop
        - (deltas.map fun x => cfg.scrollSpeed * (x / (1667 / 100))).sum
        = s.acc - (runFrames cfg deltas s).1.acc := by
      have := hrun.1
      linarith
    rw [heq]
    have h1 := hrun.2.1
    have h2 := hrun.2.2
    rw [abs_lt]
    constructor <;> linarith

/-- Witness for C2: the per-frame law and the sub-pixel bound evaluated on
a concrete running configuration over three frames. -/
theorem accumulator_no_pixel_loss_witness :
    (let cfg : FrameConfig :=
      { scrollSpeed := 5/2, useSmartPacing := false
        playbackDirection := PlaybackDirection.forward
        markers := [], clientHeight := 600, scrollHeight := 100000 }
     let s : ScrollState :=
      { scrollTop := 0, acc := 0, isPlaying := true, isControlsVisible := false }
     ((animateFrame cfg 16 s).1.scrollTop
        = s.scrollTop + (⌊s.acc + cfg.scrollSpeed * ((16 : ℚ) / (1667 / 100))⌋ : ℚ)) ∧
     |(runFrames cfg [] s).1.scrollTop - s.scrollTop
        - (([] : List ℚ).map fun x => cfg.scrollSpeed * (x / (1667 / 100))).sum| < 1) := by
  refine ⟨?_, ?_⟩
  · exact (accumulator_no_pixel_loss _ 16 [] _ 600 100000 rfl rfl
      (by norm_num) (by norm_num) (by norm_num)
      (by intro x hx; cases hx) rfl (by norm_num) (by norm_num) rfl).1.1
  · exact (accumulator_no_pixel_loss _ 16 [] _ 600 100000 rfl rfl
      (by norm_num) (by norm_num) (by norm_num)
      (by intro x hx; cases hx) rfl (by norm_num) (by norm_num) rfl).2.2

/-- The scanner step on a successful match: emit the wrapped replacement
and continue after the match. -/
theorem processedHtmlChars_some (cs : List Char) (r : List Char × ℕ × List Char)
    (h : matchMarkerAt cs = some r) :
    processedHtmlChars cs = wrapSpan r.1 r.2.1 ++ processedHtmlChars r.2.2 := by
  rw [processedHtmlChars.eq_def]
  split
  · rename_i r2 h2
    rw [h] at h2
    cases h2
    rfl
  · rename_i h2
    rw [h] at h2
    cases h2

/-- The scanner step on a failed match: emit the character and advance by
one. -/
theorem processedHtmlChars_none (c : Char) (cs : List Char)
    (h : matchMarkerAt (c :: cs) = none) :
    processedHtmlChars (c :: cs) = c :: processedHtmlChars cs := by
  rw [processedHtmlChars.eq_def]
  split
  · rename_i r2 h2
    rw [h] at h2
    cases h2
  · rfl

/-- The matcher succeeds on every specification-level timestamp marker
placed at the scan position, returning exactly the marker, its
minutes*60 + seconds value, and the remaining input. -/
theorem matchMarkerAt_marker (m : List Char) (t : ℕ) (rest : List Char)
    (hm : isTimestampMarker m t) :
    matchMarkerAt (m ++ rest) = some (m, t, rest) := by
  have hcolon : (':' : Char).isDigit = false := by decide
  rcases hm with ⟨d1, s1, s2, hd1, hs1, hs2, rfl, rfl⟩ |
    ⟨d1, d2, s1, s2, hd1, hd2, hs1, hs2, rfl, rfl⟩
  · simp [matchMarkerAt, hd1, hs1, hs2, hcolon]
  · simp [matchMarkerAt, hd1, hd2, hs1, hs2]

/-- Conversely, every successful match is a specification-level timestamp
marker that is a prefix of the input, and the remainder is exactly the
input after it. -/
theorem matchMarkerAt_some (cs : List Char) (r : List Char × ℕ × List Char)
    (h : matchMarkerAt cs = some r) :
    isTimestampMarker r.1 r.2.1 ∧ cs = r.1 ++ r.2.2 := by
  rcases cs with _ | ⟨b0, cs⟩
  · exact absurd h (by simp [matchMarkerAt])
  rcases cs with _ | ⟨b1, cs⟩
  · exact absurd h (by simp [matchMarkerAt])
  rcases cs with _ | ⟨b2, cs⟩
  · exact absurd h (by simp [matchMarkerAt])
  rcases cs with _ | ⟨b3, cs⟩
  · exact absurd h (by simp [matchMarkerAt])
  rcases cs with _ | ⟨b4, cs⟩
  · exact absurd h (by simp [matchMarkerAt])
  rcases cs with _ | ⟨b5, rest⟩
  · exact absurd h (by simp [matchMarkerAt])
  rcases rest with _ | ⟨b6, rest2⟩
  · simp only [matchMarkerAt] at h
    split_ifs at h with h1 h2 h3
    · obtain ⟨hb0, hb1⟩ := h1
      obtain ⟨hc, hd3, hd4, hb5⟩ := h3
      cases h
      subst hb0 hc hb5
      refine ⟨Or.inl ⟨b1, b3, b4, hb1, hd3, hd4, rfl, rfl⟩, by simp⟩
  · simp only [matchMarkerAt] at h
    split_ifs at h with h1 h2 h3 h4
    · obtain ⟨hb0, hb1⟩ := h1
      obtain ⟨hc, hd4, hd5, hb6⟩ := h3
      cases h
      subst hb0 hc hb6
      refine ⟨Or.inr ⟨b1, b2, b4, b5, hb1, h2, hd4, hd5, rfl, rfl⟩, by simp⟩
    · obtain ⟨hb0, hb1⟩ := h1
      obtain ⟨hc, hd3, hd4, hb5⟩ := h4
      cases h
      subst hb0 hc hb5
      refine ⟨Or.inl ⟨b1, b3, b4, hb1, hd3, hd4, rfl, rfl⟩, by simp⟩

/-- C9: the processedHtml preprocessor wraps exactly the substrings of
shape bracket-m-colon-ss-bracket or bracket-mm-colon-ss-bracket: a
timestamp marker at the scan position is replaced by the inert span whose
data-timestamp equals minutes*60 + seconds and whose content is the
original marker text, a position at which no timestamp marker starts is
copied through unchanged, the empty text maps to the empty text, and the
string-level function is the character-level scan. -/
theorem marker_parser_correct :
    (∀ (m : List Char) (t : ℕ) (rest : List Char), isTimestampMarker m t →
      processedHtmlChars (m ++ rest) = wrapSpan m t ++ processedHtmlChars rest) ∧
    (∀ (c : Char) (cs : List Char),
      (¬ ∃ (m : List Char) (t : ℕ) (tail : List Char),
          isTimestampMarker m t ∧ c :: cs = m ++ tail) →
      processedHtmlChars (c :: cs) = c :: processedHtmlChars cs) ∧
    processedHtmlChars [] = [] ∧
    (∀ s : String, processedHtml s = String.mk (processedHtmlChars s.data)) := by
  refine ⟨?_, ?_, ?_, fun s => rfl⟩
  · intro m t rest hm
    exact processedHtmlChars_some (m ++ rest) (m, t, rest) (matchMarkerAt_marker m t rest hm)
  · intro c cs hno
    rcases hmatch : matchMarkerAt (c :: cs) with _ | r
    · exact processedHtmlChars_none c cs hmatch
    · exact absurd
        ⟨r.1, r.2.1, r.2.2, (matchMarkerAt_some _ r hmatch).1,
          (matchMarkerAt_some _ r hmatch).2⟩ hno
  · rw [processedHtmlChars.eq_def]
    rfl

/-- Witness for C9: the marker 1:23 followed by a letter is wrapped with
data-timestamp 83 and the rest of the text is scanned on, while a plain
letter is copied through unchanged. -/
theorem marker_parser_correct_witness :
    processedHtmlChars (['[', '1', ':', '2', '3', ']'] ++ ['x'])
        = wrapSpan ['[', '1', ':', '2', '3', ']'] 83 ++ processedHtmlChars ['x'] ∧
    processedHtmlChars ['x'] = 'x' :: processedHtmlChars [] := by
  constructor
  · exact marker_parser_correct.1 ['[', '1', ':', '2', '3', ']'] 83 ['x']
      (Or.inl ⟨'1', '2', '3', by decide, by decide, by decide, rfl, by decide⟩)
  · refine marker_parser_correct.2.1 'x' [] ?_
    rintro ⟨m, t, tail, hm, heq⟩
    rcases hm with ⟨d1, s1, s2, _, _, _, rfl, _⟩ | ⟨d1, d2, s1, s2, _, _, _, _, rfl, _⟩
    · simp at heq
    · simp at heq

/-- C8: during forward playback a tick auto-stops exactly when the frame
start position satisfies scrollHeight - (scrollTop + clientHeight) <= 1,
during reverse playback exactly when scrollTop <= 0; a firing tick forces
isPlaying to false, a non-firing running tick keeps it true, and once
isPlaying is false any further run of ticks mutates nothing and fires no
further auto-stop event until playback is restarted. -/
theorem auto_stop_fires_once (cfg : FrameConfig) (d : ℚ) (deltas : List ℚ)
    (s : ScrollState) :
    (s.isPlaying = true → cfg.playbackDirection = PlaybackDirection.forward →
      cfg.scrollHeight - (s.scrollTop + cfg.clientHeight) ≤ 1 →
      (animateFrame cfg d s).1.isPlaying = false ∧ (animateFrame cfg d s).2 = true) ∧
    (s.isPlaying = true → cfg.playbackDirection = PlaybackDirection.reverse →
      s.scrollTop ≤ 0 →
      (animateFrame cfg d s).1.isPlaying = false ∧ (animateFrame cfg d s).2 = true) ∧
    (s.isPlaying = true → cfg.playbackDirection = PlaybackDirection.forward →
      ¬ cfg.scrollHeight - (s.scrollTop + cfg.clientHeight) ≤ 1 →
      (animateFrame cfg d s).1.isPlaying = true ∧ (animateFrame cfg d s).2 = false) ∧
    (s.isPlaying = true → cfg.playbackDirection = PlaybackDirection.reverse →
      ¬ s.scrollTop ≤ 0 →
      (animateFrame cfg d s).1.isPlaying = true ∧ (animateFrame cfg d s).2 = false) ∧
    (s.isPlaying = false → animateFrame cfg d s = (s, false)) ∧
    (s.isPlaying = false → runFrames cfg deltas s = (s, 0)) := by
  have hstopped : s.isPlaying = false → animateFrame cfg d s = (s, false) := by
    intro hp
    simp [animateFrame, hp]
  refine ⟨?_, ?_, ?_, ?_, hstopped, ?_⟩
  · intro hp hdir hb
    simp [animateFrame, hp, hdir, hb]
  · intro hp hdir hb
    simp [animateFrame, hp, hdir, hb]
  · intro hp hdir hb
    simp [animateFrame, hp, hdir, hb]
    split <;> rfl
  · intro hp hdir hb
    simp [animateFrame, hp, hdir, hb]
    split <;> rfl
  · intro hp
    induction deltas with
    | nil => rfl
    | cons d0 rest ih =>
        have hstep : animateFrame cfg d0 s = (s, false) := by
          simp [animateFrame, hp]
        simp [runFrames, hstep, ih]

/-- Witness for C8: the auto-stop behavior evaluated on a concrete forward
configuration at the bottom boundary, and on a stopped state. -/
theorem auto_stop_fires_once_witness :
    (let cfg : FrameConfig :=
      { scrollSpeed := 5/2, useSmartPacing := false
        playbackDirection := PlaybackDirection.forward
        markers := [], clientHeight := 600, scrollHeight := 1000 }
     let s : ScrollState :=
      { scrollTop := 400, acc := 0, isPlaying := true, isControlsVisible := false }
     let stopped : ScrollState :=
      { scrollTop := 400, acc := 0, isPlaying := false, isControlsVisible := true }
     ((animateFrame cfg 16 s).1.isPlaying = false ∧ (animateFrame cfg 16 s).2 = true) ∧
       runFrames cfg [16, 16, 16] stopped = (stopped, 0)) := by
  refine ⟨?_, ?_⟩
  · exact (auto_stop_fires_once _ 16 [] _).1 rfl rfl (by norm_num)
  · exact (auto_stop_fires_once _ 16 [16, 16, 16] _).2.2.2.2.2 rfl

/-- C6 counterexample: a startHost execution whose relay subscription only
reports failure and whose peer never opens leaves the returned promise
pending (no resolution value), and a connectToHost execution in the same
situation is still unresolved after the 10-second timer fires: the timer
clears only the isConnecting UI flag. -/
theorem connect_pending_counterexample :
    (runStartHost ["K7M2"] [[HostEvent.relayFailed, HostEvent.peerOtherError]]).2 = none ∧
    (runConnectToHost [ClientEvent.relayFailed, ClientEvent.timeoutFired]).resolved = false ∧
    (runConnectToHost [ClientEvent.relayFailed, ClientEvent.timeoutFired]).isConnecting
      = false := by
  exact ⟨rfl, rfl, rfl⟩

/-- C6 amended: the startHost and connectToHost promises resolve only upon
a transport ready callback, a resolving unavailable-id retry, or a caught
synchronous setup exception; in an execution where no such event ever
occurs the promise remains pending forever, and the remote client
10-second timer clears only the isConnecting UI flag without resolving
anything. -/
theorem promise_resolves_only_on_ready (id : String) (ids : List String)
    (trace : List HostEvent) (traces : List (List HostEvent))
    (events : List ClientEvent) (c : ClientRun)
    (hh : ∀ e ∈ trace, e ≠ HostEvent.relaySubscribed ∧ e ≠ HostEvent.peerOpen ∧
        e ≠ HostEvent.syncCaught ∧ e ≠ HostEvent.peerUnavailableId)
    (hc : ∀ e ∈ events, e ≠ ClientEvent.relaySubscribed ∧ e ≠ ClientEvent.peerConnOpen ∧
        e ≠ ClientEvent.syncCaught) :
    (runStartHost (id :: ids) (trace :: traces)).2 = none ∧
    (runConnectToHost events).resolved = false ∧
    (clientStep c ClientEvent.timeoutFired).resolved = c.resolved ∧
    (clientStep c ClientEvent.timeoutFired).isConnecting = false := by
  have haux : ∀ (tr : List HostEvent) (st : HostAttemptState),
      (∀ e ∈ tr, e ≠ HostEvent.relaySubscribed ∧ e ≠ HostEvent.peerOpen ∧
        e ≠ HostEvent.syncCaught ∧ e ≠ HostEvent.peerUnavailableId) →
      st.resolution = none → st.retryRequested = false →
      (tr.foldl (hostStep id) st).resolution = none ∧
      (tr.foldl (hostStep id) st).retryRequested = false := by
    intro tr
    induction tr with
    | nil => intro st _ h1 h2; exact ⟨h1, h2⟩
    | cons e es ih =>
        intro st hall h1 h2
        have he := hall e (List.mem_cons_self e es)
        have hrest : ∀ x ∈ es, x ≠ HostEvent.relaySubscribed ∧ x ≠ HostEvent.peerOpen ∧
            x ≠ HostEvent.syncCaught ∧ x ≠ HostEvent.peerUnavailableId :=
          fun x hx => hall x (List.mem_cons_of_mem e hx)
        cases e with
        | relaySubscribed => exact absurd rfl he.1
        | peerOpen => exact absurd rfl he.2.1
        | syncCaught => exact absurd rfl he.2.2.1
        | peerUnavailableId => exact absurd rfl he.2.2.2
        | relayFailed =>
            have hstep : hostStep id st HostEvent.relayFailed = st := rfl
            simp only [List.foldl, hstep]
            exact ih st hrest h1 h2
        | peerOtherError =>
            have hstep : hostStep id st HostEvent.peerOtherError = st := rfl
            simp only [List.foldl, hstep]
            exact ih st hrest h1 h2
  have hhost := haux trace
    { shared := { roomId := none, isConnected := false, reachable := [], destroyed := [] }
      resolution := none, peerDestroyed := false, retryRequested := false } hh rfl rfl
  have hcaux : ∀ (evs : List ClientEvent) (c0 : ClientRun),
      (∀ e ∈ evs, e ≠ ClientEvent.relaySubscribed ∧ e ≠ ClientEvent.peerConnOpen ∧
        e ≠ ClientEvent.syncCaught) →
      c0.resolved = false → (evs.foldl clientStep c0).resolved = false := by
    intro evs
    induction evs with
    | nil => intro c0 _ h1; exact h1
    | cons e es ih =>
        intro c0 hall h1
        have he := hall e (List.mem_cons_self e es)
        have hrest : ∀ x ∈ es, x ≠ ClientEvent.relaySubscribed ∧
            x ≠ ClientEvent.peerConnOpen ∧ x ≠ ClientEvent.syncCaught :=
          fun x hx => hall x (List.mem_cons_of_mem e hx)
        cases e with
        | relaySubscribed => exact absurd rfl he.1
        | peerConnOpen => exact absurd rfl he.2.1
        | syncCaught => exact absurd rfl he.2.2
        | relayFailed => exact ih (clientStep c0 .relayFailed) hrest h1
        | peerConnError => exact ih (clientStep c0 .peerConnError) hrest h1
        | timeoutFired => exact ih (clientStep c0 .timeoutFired) hrest h1
  refine ⟨?_, hcaux events _ hc rfl, rfl, rfl⟩
  show (runStartHostFrom (id :: ids) (trace :: traces) _).2 = none
  simp only [runStartHostFrom]
  rw [processAttempt] at *
  rw [hhost.2]
  simp [hhost.1]

/-- Witness for C6 amended: a failing relay trace leaves the host promise
pending, and a failed-plus-timeout client trace remains unresolved with
the connecting flag cleared. -/
theorem promise_resolves_only_on_ready_witness :
    (runStartHost ["K7M2"] [[HostEvent.relayFailed]]).2 = none ∧
    (runConnectToHost [ClientEvent.relayFailed, ClientEvent.timeoutFired]).resolved
      = false ∧
    (clientStep { resolved := false, isConnecting := true, isConnected := false }
        ClientEvent.timeoutFired).resolved = false ∧
    (clientStep { resolved := false, isConnecting := true, isConnected := false }
        ClientEvent.timeoutFired).isConnecting = false := by
  exact promise_resolves_only_on_ready "K7M2" [] [HostEvent.relayFailed] []
    [ClientEvent.relayFailed, ClientEvent.timeoutFired]
    { resolved := false, isConnecting := true, isConnected := false }
    (by intro e he; fin_cases he; exact ⟨by decide, by decide, by decide, by decide⟩)
    (by intro e he; fin_cases he
        · exact ⟨by decide, by decide, by decide⟩
        · exact ⟨by decide, by decide, by decide⟩)

/-- C7 counterexample: when the original peer id K7M2 is taken and the
retried host comes up under the fresh code X3PQ, the original startHost
promise resolves with K7M2, a code under which the host is not reachable
on any transport. -/
theorem host_retry_counterexample :
    (runStartHost ["K7M2", "X3PQ"]
        [[HostEvent.peerUnavailableId], [HostEvent.peerOpen]]).2 = some "K7M2" ∧
    (runStartHost ["K7M2", "X3PQ"]
        [[HostEvent.peerUnavailableId], [HostEvent.peerOpen]]).1.reachable = ["X3PQ"] ∧
    "K7M2" ∉ (runStartHost ["K7M2", "X3PQ"]
        [[HostEvent.peerUnavailableId], [HostEvent.peerOpen]]).1.reachable := by
  exact ⟨rfl, rfl, by decide⟩

/-- C7 amended: on an unavailable-id error the host destroys the colliding
peer endpoint, generates a fresh room code and retries; once the retried
host is reachable the original promise resolves, but with the original
colliding room code, while the room code the retried host is actually
reachable under is published only through the roomId state. -/
theorem host_retry_behavior (id freshId : String) (ids : List String)
    (traces : List (List HostEvent)) :
    (runStartHost (id :: freshId :: ids)
        ([HostEvent.peerUnavailableId] :: [HostEvent.peerOpen] :: traces)).1.destroyed
      = [peerIdOf id] ∧
    (runStartHost (id :: freshId :: ids)
        ([HostEvent.peerUnavailableId] :: [HostEvent.peerOpen] :: traces)).1.roomId
      = some freshId ∧
    (runStartHost (id :: freshId :: ids)
        ([HostEvent.peerUnavailableId] :: [HostEvent.peerOpen] :: traces)).1.reachable
      = [freshId] ∧
    (runStartHost (id :: freshId :: ids)
        ([HostEvent.peerUnavailableId] :: [HostEvent.peerOpen] :: traces)).2
      = some id := by
  exact ⟨rfl, rfl, rfl, rfl⟩

end GoodScript
